import Mathlib

/-!
# libcontainer: setns init, system helpers and the AppArmor profile generator

A shallow embedding of

* `libcontainer/system/proc.go`        (`GetProcessStartTime`)
* `libcontainer/system/linux.go`       (`ParentDeathSignal`, `Execv`, prctl wrappers)
* `libcontainer/system/setns_linux.go` (`setNsMap`, `SysSetns`, `Setns`)
* `libcontainer/apparmor/apparmor.go`  (`ApplyProfile`)
* `libcontainer/apparmor/gen.go`       (`baseTemplate`, `generateProfile`)
* `libcontainer/setns_init_linux.go`   (`linuxSetnsInit.Init`)

Go strings are Lean strings (all text involved is ASCII, so bytes and characters
coincide).  Everything the Go code obtains from the operating system or from a package
outside these files (file reads, `prctl`, `aa_change_onexec`, `exec.LookPath`, ...) is a
parameter of the embedded function; calls that matter for a property are recorded in a
trace.
-/

set_option autoImplicit false

namespace Runc

/-! ## Common Go notions -/

/-- A Go `error` value: a kernel errno (`syscall.Errno`) or a formatted message
(`fmt.Errorf`, `*os.PathError`, ...). -/
inductive GoError
  | Errno (code : Nat)
  | errorString (msg : String)
  deriving DecidableEq, Repr

/-- A Go run-time panic. -/
inductive Panic
  | indexOutOfRange (index length : Nat)
  deriving DecidableEq, Repr

/-- Loop of `strings.Split(s, sep)` for a one-byte separator: cut at every occurrence of
`sep`.  The result always has one more element than there are separators. -/
def splitOnByte (sep : Char) : List Char → List (List Char)
  | [] => [[]]
  | c :: cs =>
    if c = sep then [] :: splitOnByte sep cs
    else
      match splitOnByte sep cs with
      | [] => [[c]]
      | p :: ps => (c :: p) :: ps

/-- Go `strings.Split(s, sep)` for a one-byte separator. -/
def Split (s : String) (sep : Char) : List String :=
  (splitOnByte sep s.data).map String.mk

/-- Go `strings.Join(parts, sep)` for a one-byte separator, on byte lists. -/
def joinBytes (sep : Char) : List (List Char) → List Char
  | [] => []
  | [p] => p
  | p :: q :: ps => p ++ sep :: joinBytes sep (q :: ps)

/-- Go `strings.Join(parts, sep)` for a one-byte separator. -/
def Join (parts : List String) (sep : Char) : String :=
  String.mk (joinBytes sep (parts.map String.data))

/-- Go `fmt.Sprintf("%s/%s", a, b)`. -/
def sprintfSlash (a b : String) : String := a ++ "/" ++ b

namespace system

/-! ## system/proc.go -/

/-- Go `strconv.Itoa`. -/
def Itoa (i : Int) : String := toString i

/-- The path `filepath.Join("/proc", strconv.Itoa(pid), "stat")`. -/
def statPath (pid : Int) : String := "/proc" ++ "/" ++ Itoa pid ++ "/" ++ "stat"

/-- What a call of `GetProcessStartTime` does: it returns its `(string, error)` pair or
panics. -/
inductive StartTimeResult
  | returned (token : String) (err : Option GoError)
  | panicked (p : Panic)
  deriving DecidableEq, Repr

/-- `GetProcessStartTime(pid)`; `ReadFile` is `ioutil.ReadFile` on the host.  The index
expression `parts[22-1]` panics when the slice has fewer than 22 elements. -/
def GetProcessStartTime (ReadFile : String → Except GoError String) (pid : Int) :
    StartTimeResult :=
  match ReadFile (statPath pid) with
  | .error err => .returned "" (some err)
  | .ok data =>
    let parts := Split data ' '
    match parts[22 - 1]? with
    | some tok => .returned tok none
    | none => .panicked (.indexOutOfRange (22 - 1) parts.length)

/-! ## system/setns_linux.go -/

/-- The build target: `runtime.GOOS` and `runtime.GOARCH`. -/
structure Runtime where
  GOOS : String
  GOARCH : String
  deriving DecidableEq, Repr

/-- The table `setNsMap`, a Go `map[string]uintptr`, as an association list. -/
def setNsMap : List (String × Nat) :=
  [("linux/386", 346),
   ("linux/arm64", 268),
   ("linux/amd64", 308),
   ("linux/arm", 375),
   ("linux/ppc", 350),
   ("linux/ppc64", 350),
   ("linux/ppc64le", 350),
   ("linux/s390x", 339)]

/-- The (OS, architecture) pairs of the table. -/
def setNsPairs : List (String × String) :=
  [("linux", "386"), ("linux", "arm64"), ("linux", "amd64"), ("linux", "arm"),
   ("linux", "ppc"), ("linux", "ppc64"), ("linux", "ppc64le"), ("linux", "s390x")]

/-- Go map index in its two-value form `v, ok := m[k]`: the zero value and `false` for an
absent key. -/
def mapIndex (m : List (String × Nat)) (k : String) : Nat × Bool :=
  match m.lookup k with
  | some v => (v, true)
  | none => (0, false)

/-- The package variable `sysSetns`: a one-value map index, so an absent key gives the
zero value. -/
def sysSetns (rt : Runtime) : Nat :=
  (mapIndex setNsMap (sprintfSlash rt.GOOS rt.GOARCH)).1

/-- `SysSetns()`: the conversion `uint32(sysSetns)`. -/
def SysSetns (rt : Runtime) : Nat := sysSetns rt % 2 ^ 32

/-- One `syscall.RawSyscall(trap, a1, a2, a3)`. -/
structure RawCall where
  trap : Nat
  a1 : Nat
  a2 : Nat
  a3 : Nat
  deriving DecidableEq, Repr

/-- `Setns(fd, flags)`.  `RawSyscall` gives the errno of the raw system call (0 for
success); the result is the list of raw system calls issued and the returned error. -/
def Setns (rt : Runtime) (RawSyscall : RawCall → Nat) (fd flags : Nat) :
    List RawCall × Option GoError :=
  match mapIndex setNsMap (sprintfSlash rt.GOOS rt.GOARCH) with
  | (_, false) =>
    ([], some (.errorString ("unsupported platform " ++ rt.GOOS ++ "/" ++ rt.GOARCH)))
  | (ns, true) =>
    let err := RawSyscall ⟨ns, fd, flags, 0⟩
    if err ≠ 0 then ([⟨ns, fd, flags, 0⟩], some (.Errno err))
    else ([⟨ns, fd, flags, 0⟩], none)

/-! ## system/linux.go -/

/-- Conversion `uintptr(p)` of a Go `int` on a 64-bit target. -/
def uintptr (p : Int) : Nat := (p % 2 ^ 64).toNat

/-- Conversion of a 64-bit word to a Go `int` (two's complement). -/
def int (u : Nat) : Int :=
  if u % 2 ^ 64 < 2 ^ 63 then ((u % 2 ^ 64 : Nat) : Int) else ((u % 2 ^ 64 : Nat) : Int) - 2 ^ 64

/-- The values of a Go `int` on a 64-bit target. -/
def isInt (p : Int) : Prop := -(2 ^ 63) ≤ p ∧ p < 2 ^ 63

/-- The parent-death signal of the calling process as one cell, with the calls made on
it: `pdeathsig` is what `PR_GET_PDEATHSIG` reports, `getCalls` counts the get calls and
`setCalls` lists the arguments of the `PR_SET_PDEATHSIG` calls, oldest first. -/
structure PdeathState where
  pdeathsig : Int
  getCalls : Nat
  setCalls : List Nat
  deriving DecidableEq, Repr

/-- The errno (0 for success) with which the two `prctl` requests answer, given the state
they are issued in and, for the set, the signal passed. -/
structure Prctl where
  getErrno : PdeathState → Nat
  setErrno : PdeathState → Nat → Nat

/-- `SetParentDeathSignal(sig)`: `prctl(PR_SET_PDEATHSIG, sig)`; a successful call writes
the cell. -/
def SetParentDeathSignal (k : Prctl) (sig : Nat) (s : PdeathState) :
    Option GoError × PdeathState :=
  let err := k.setErrno s sig
  if err ≠ 0 then
    (some (.Errno err), { s with setCalls := s.setCalls ++ [sig] })
  else
    (none, { s with setCalls := s.setCalls ++ [sig], pdeathsig := int sig })

/-- `GetParentDeathSignal()`: `prctl(PR_GET_PDEATHSIG, &sig)`. -/
def GetParentDeathSignal (k : Prctl) (s : PdeathState) :
    (Int × Option GoError) × PdeathState :=
  let err := k.getErrno s
  if err ≠ 0 then
    ((-1, some (.Errno err)), { s with getCalls := s.getCalls + 1 })
  else
    ((s.pdeathsig, none), { s with getCalls := s.getCalls + 1 })

/-- `ParentDeathSignal.Set`. -/
def ParentDeathSignal.Set (k : Prctl) (p : Int) (s : PdeathState) :
    Option GoError × PdeathState :=
  SetParentDeathSignal k (uintptr p) s

/-- `ParentDeathSignal.Restore`. -/
def ParentDeathSignal.Restore (k : Prctl) (p : Int) (s : PdeathState) :
    Option GoError × PdeathState :=
  if p = 0 then (none, s)
  else
    match GetParentDeathSignal k s with
    | ((_, some err), s1) => (some err, s1)
    | ((current, none), s1) =>
      if p = current then (none, s1)
      else ParentDeathSignal.Set k p s1

/-- A `prctl` that always succeeds. -/
def prctlOk : Prctl := ⟨fun _ => 0, fun _ _ => 0⟩

/-- A `prctl` that, like the kernel, rejects a signal number above 64 with `EINVAL`. -/
def prctlKernel : Prctl := ⟨fun _ => 0, fun _ sig => if sig ≤ 64 then 0 else 22⟩

/-- A readable stat record with 24 fields; field 22 is `8123456`. -/
def sampleStat : String :=
  "4242 (cat) R 4241 4242 4241 34816 4242 4194304 96 0 0 0 0 0 0 0 20 0 1 0 8123456 5677056 170"

end system

/-! ## The init configuration and the calls of the init sequence -/

/-- Modelled from the spec: the type `configs.Config` is declared outside these files; of
the externally supplied configuration (resource-limit list, security-profile name,
security label string) these are the fields the init sequence reads.  A resource limit is
a (kind, hard, soft) triple. -/
structure Config where
  Rlimits : List (Nat × Nat × Nat)
  AppArmorProfile : String
  ProcessLabel : String
  deriving DecidableEq, Repr

/-- Modelled from the spec: the type `initConfig` is declared outside these files; it
carries the argument vector and the container configuration. -/
structure initConfig where
  Args : List String
  Config : Config
  deriving DecidableEq, Repr

/-- The type `linuxSetnsInit`. -/
structure linuxSetnsInit where
  config : initConfig
  deriving DecidableEq, Repr

/-- How a call ends: it returns its `error` result, it panics, or (a successful
`syscall.Exec`) the process image is replaced and the call never returns. -/
inductive Exit
  | returned (err : Option GoError)
  | panicked (p : Panic)
  | replaced
  deriving DecidableEq, Repr

/-- The calls of the init sequence that are recorded, with their arguments. -/
inductive Call
  | setupRlimits (config : Config)
  | finalizeNamespace (config : initConfig)
  | ApplyProfile (name : String)
  | aa_change_onexec (name : String)
  | SetProcessLabel (label : String)
  | Execv (cmd : String) (args env : List String)
  | LookPath (file : String)
  | Exec (argv0 : String) (argv envv : List String)
  deriving DecidableEq, Repr

/-- A recorded call with the way it ended. -/
structure Event where
  call : Call
  exit : Exit
  deriving DecidableEq, Repr

/-- The collaborators of the init sequence that live outside these files, as the outcome
each gives when called (`none` is a nil error; for `Exec`, `none` is a successful image
replacement): `setupRlimits` and `finalizeNamespace` of the package, `aa_change_onexec`
of libapparmor, `label.SetProcessLabel`, `exec.LookPath`, `syscall.Exec`, `os.Environ`. -/
structure Host where
  setupRlimits : Config → Option GoError
  finalizeNamespace : initConfig → Option GoError
  aa_change_onexec : String → Option GoError
  SetProcessLabel : String → Option GoError
  LookPath : String → Except GoError String
  Exec : String → List String → List String → Option GoError
  Environ : List String

namespace system

/-- `Execv(cmd, args, env)` of system/linux.go: the calls it makes and how it ends. -/
def Execv (h : Host) (cmd : String) (args env : List String) : List Event × Exit :=
  match h.LookPath cmd with
  | .error err => ([⟨.LookPath cmd, .returned (some err)⟩], .returned (some err))
  | .ok name =>
    match h.Exec name args env with
    | some err =>
      ([⟨.LookPath cmd, .returned none⟩, ⟨.Exec name args env, .returned (some err)⟩],
        .returned (some err))
    | none =>
      ([⟨.LookPath cmd, .returned none⟩, ⟨.Exec name args env, .replaced⟩], .replaced)

end system

namespace apparmor

/-! ## apparmor/apparmor.go -/

/-- `ApplyProfile(name)`: the calls it makes and the error it returns. -/
def ApplyProfile (h : Host) (name : String) : List Event × Option GoError :=
  if name = "" then ([], none)
  else
    match h.aa_change_onexec name with
    | some err => ([⟨.aa_change_onexec name, .returned (some err)⟩], some err)
    | none => ([⟨.aa_change_onexec name, .returned none⟩], none)

/-! ## apparmor/gen.go -/

/-- The type `data`. -/
structure data where
  Name : String
  Imports : List String
  InnerImports : List String
  deriving DecidableEq, Repr

/-- The constant `baseTemplate`, line by line.  In the literals `\x7b` is an opening and
`\x7d` a closing brace. -/
def baseTemplate : String :=
  "\n" ++
  "\x7b\x7brange $value := .Imports\x7d\x7d\n" ++
  "\x7b\x7b$value\x7d\x7d\n" ++
  "\x7b\x7bend\x7d\x7d\n" ++
  "\n" ++
  "profile \x7b\x7b.Name\x7d\x7d flags=(attach_disconnected,mediate_deleted) \x7b\n" ++
  "\x7b\x7brange $value := .InnerImports\x7d\x7d\n" ++
  "  \x7b\x7b$value\x7d\x7d\n" ++
  "\x7b\x7bend\x7d\x7d\n" ++
  "\n" ++
  "  network,\n" ++
  "  capability,\n" ++
  "  file,\n" ++
  "  umount,\n" ++
  "\n" ++
  "  deny @\x7bPROC\x7d/sys/fs/** wklx,\n" ++
  "  deny @\x7bPROC\x7d/sysrq-trigger rwklx,\n" ++
  "  deny @\x7bPROC\x7d/mem rwklx,\n" ++
  "  deny @\x7bPROC\x7d/kmem rwklx,\n" ++
  "  deny @\x7bPROC\x7d/sys/kernel/[^s][^h][^m]* wklx,\n" ++
  "  deny @\x7bPROC\x7d/sys/kernel/*/** wklx,\n" ++
  "\n" ++
  "  deny mount,\n" ++
  "\n" ++
  "  deny /sys/[^f]*/** wklx,\n" ++
  "  deny /sys/f[^s]*/** wklx,\n" ++
  "  deny /sys/fs/[^c]*/** wklx,\n" ++
  "  deny /sys/fs/c[^g]*/** wklx,\n" ++
  "  deny /sys/fs/cg[^r]*/** wklx,\n" ++
  "  deny /sys/firmware/efi/efivars/** rwklx,\n" ++
  "  deny /sys/kernel/security/** rwklx,\n" ++
  "\x7d\n"

/-! ### The part of `text/template` that `baseTemplate` uses

Text is copied verbatim; the actions are `{{.Field}}`, `{{$variable}}` and
`{{range $variable := .Field}} ... {{end}}` (not nested, no `else`).  Anything else is
reported as an error. -/

/-- A lexical item: literal text, or the inside of one `{{ ... }}` action. -/
inductive Item
  | text (s : String)
  | action (s : String)
  deriving DecidableEq, Repr

/-- The lexer: `inAction` tells whether the scan is between delimiters, `acc` holds the
bytes of the current item, last first. -/
def lexItems : Bool → List Char → List Char → Except GoError (List Item)
  | false, acc, [] => .ok [.text (String.mk acc.reverse)]
  | true, _, [] => .error (.errorString "template: unclosed action")
  | false, acc, [c] => .ok [.text (String.mk (c :: acc).reverse)]
  | true, _, [_] => .error (.errorString "template: unclosed action")
  | false, acc, c :: d :: rest =>
    if c = Char.ofNat 123 ∧ d = Char.ofNat 123 then
      match lexItems true [] rest with
      | .error e => .error e
      | .ok items => .ok (.text (String.mk acc.reverse) :: items)
    else lexItems false (c :: acc) (d :: rest)
  | true, acc, c :: d :: rest =>
    if c = Char.ofNat 125 ∧ d = Char.ofNat 125 then
      match lexItems false [] rest with
      | .error e => .error e
      | .ok items => .ok (.action (String.mk acc.reverse) :: items)
    else lexItems true (c :: acc) (d :: rest)

/-- What stands inside a range body or at top level besides a range. -/
inductive Leaf
  | text (s : String)
  | field (name : String)
  | dollar (name : String)
  deriving DecidableEq, Repr

/-- A node of the parsed template. -/
inductive Node
  | leaf (l : Leaf)
  | range (var field : String) (body : List Leaf)
  deriving DecidableEq, Repr

/-- A classified item. -/
inductive Piece
  | leaf (l : Leaf)
  | rangeOpen (var field : String)
  | rangeEnd
  deriving DecidableEq, Repr

/-- The words of an action: its text cut at spaces, empty words dropped. -/
def actionWords (s : String) : List (List Char) :=
  (splitOnByte ' ' s.data).filter (fun w => !w.isEmpty)

/-- Classification of one item. -/
def classify : Item → Except GoError Piece
  | .text s => .ok (.leaf (.text s))
  | .action s =>
    match actionWords s with
    | [['e', 'n', 'd']] => .ok .rangeEnd
    | ['$' :: v] => .ok (.leaf (.dollar (String.mk v)))
    | ['.' :: f] => .ok (.leaf (.field (String.mk f)))
    | [['r', 'a', 'n', 'g', 'e'], '$' :: v, [':', '='], '.' :: f] =>
      .ok (.rangeOpen (String.mk v) (String.mk f))
    | _ => .error (.errorString ("template: unsupported action " ++ s))

/-- The parser: the state is `none` at top level and, inside a range, the variable, the
field and the body read so far.  A variable is defined only inside the range that
declares it. -/
def parseItems : Option (String × String × List Leaf) → List Item → Except GoError (List Node)
  | none, [] => .ok []
  | some _, [] => .error (.errorString "template: unexpected EOF")
  | st, item :: rest =>
    match classify item with
    | .error e => .error e
    | .ok .rangeEnd =>
      match st with
      | none => .error (.errorString "template: unexpected end")
      | some (v, f, body) =>
        match parseItems none rest with
        | .error e => .error e
        | .ok nodes => .ok (.range v f body :: nodes)
    | .ok (.rangeOpen v f) =>
      match st with
      | none => parseItems (some (v, f, [])) rest
      | some _ => .error (.errorString "template: nested range")
    | .ok (.leaf lf) =>
      match st, lf with
      | none, .dollar n => .error (.errorString ("template: undefined variable $" ++ n))
      | none, _ =>
        match parseItems none rest with
        | .error e => .error e
        | .ok nodes => .ok (.leaf lf :: nodes)
      | some (v, f, body), .dollar n =>
        if n = v then parseItems (some (v, f, body ++ [lf])) rest
        else .error (.errorString ("template: undefined variable $" ++ n))
      | some (v, f, body), _ => parseItems (some (v, f, body ++ [lf])) rest

/-- `template.New(name).Parse(text)`. -/
def Parse (text : String) : Except GoError (List Node) :=
  match lexItems false [] text.data with
  | .error e => .error e
  | .ok items => parseItems none items

/-- A field of `data`: a string or a slice of strings. -/
inductive Value
  | str (s : String)
  | strs (l : List String)
  deriving DecidableEq, Repr

/-- Field lookup on `data`. -/
def data.field (d : data) (name : String) : Option Value :=
  if name = "Name" then some (.str d.Name)
  else if name = "Imports" then some (.strs d.Imports)
  else if name = "InnerImports" then some (.strs d.InnerImports)
  else none

/-- Execution of a leaf; `dollar` is the element of the enclosing range, if any (inside a
range the dot is the element, a string, which has no fields). -/
def execLeaf (d : data) (dollar : Option String) : Leaf → Except GoError String
  | .text s => .ok s
  | .dollar _ =>
    match dollar with
    | some v => .ok v
    | none => .error (.errorString "template: undefined variable")
  | .field n =>
    match dollar, d.field n with
    | none, some (.str s) => .ok s
    | _, _ => .error (.errorString ("template: can't evaluate field " ++ n))

/-- Execution of a list of leaves: the text written and the error that stopped it. -/
def execLeaves (d : data) (dollar : Option String) : List Leaf → String × Option GoError
  | [] => ("", none)
  | lf :: rest =>
    match execLeaf d dollar lf with
    | .error e => ("", some e)
    | .ok s =>
      let r := execLeaves d dollar rest
      (s ++ r.1, r.2)

/-- Execution of a range body once per element. -/
def execRange (d : data) (body : List Leaf) : List String → String × Option GoError
  | [] => ("", none)
  | v :: vs =>
    match execLeaves d (some v) body with
    | (w, some e) => (w, some e)
    | (w, none) =>
      let r := execRange d body vs
      (w ++ r.1, r.2)

/-- `compiled.Execute(out, data)`: the text written to `out` and the error returned. -/
def Execute (d : data) : List Node → String × Option GoError
  | [] => ("", none)
  | .leaf lf :: rest =>
    match execLeaf d none lf with
    | .error e => ("", some e)
    | .ok s =>
      let r := Execute d rest
      (s ++ r.1, r.2)
  | .range _ f body :: rest =>
    match d.field f with
    | some (.strs l) =>
      match execRange d body l with
      | (w, some e) => (w, some e)
      | (w, none) =>
        let r := Execute d rest
        (w ++ r.1, r.2)
    | _ => ("", some (.errorString ("template: range can't iterate over " ++ f)))

/-- `tunablesExists()`; `Stat` is the error of `os.Stat` on the host. -/
def tunablesExists (Stat : String → Option GoError) : Bool :=
  (Stat "/etc/apparmor.d/tunables/global").isNone

/-- `abstractionsExists()`. -/
def abstractionsExists (Stat : String → Option GoError) : Bool :=
  (Stat "/etc/apparmor.d/abstractions/base").isNone

/-- `generateProfile(out)`: the text written to `out` and the error returned. -/
def generateProfile (Stat : String → Option GoError) : String × Option GoError :=
  match Parse baseTemplate with
  | .error err => ("", some err)
  | .ok compiled =>
    let data0 : data := { Name := "docker-default", Imports := [], InnerImports := [] }
    let data1 : data :=
      if tunablesExists Stat then
        { data0 with Imports := data0.Imports ++ ["#include <tunables/global>"] }
      else
        { data0 with Imports := data0.Imports ++ ["@\x7bPROC\x7d=/proc/"] }
    let data2 : data :=
      if abstractionsExists Stat then
        { data1 with InnerImports := data1.InnerImports ++ ["#include <abstractions/base>"] }
      else data1
    Execute data2 compiled

/-- A host on which the two optional resources exist or not as the flags say. -/
def probes (tunables abstractions : Bool) : String → Option GoError :=
  fun path =>
    if path = "/etc/apparmor.d/tunables/global" then
      (if tunables then none else some (.Errno 2))
    else if path = "/etc/apparmor.d/abstractions/base" then
      (if abstractions then none else some (.Errno 2))
    else some (.Errno 2)

/-- The document contains the text. -/
def contains (doc text : String) : Prop := text.data <:+: doc.data

/-- A blank: space or tab. -/
def isBlank (c : Char) : Bool := c = ' ' || c = Char.ofNat 9

/-- The first token of a line: what follows the leading blanks, up to the next blank. -/
def firstToken (line : List Char) : List Char :=
  (line.dropWhile isBlank).takeWhile (fun c => !isBlank c)

/-- The trivial parser of the round trip: the number of lines of the document whose first
non-blank token is `deny`. -/
def denyLineCount (doc : String) : Nat :=
  ((splitOnByte (Char.ofNat 10) doc.data).filter
    (fun line => firstToken line = ['d', 'e', 'n', 'y'])).length

end apparmor

namespace libcontainer

/-! ## setns_init_linux.go -/

/-- The last statement of `Init`: `return system.Execv(l.config.Args[0],
l.config.Args[0:], os.Environ())` after the calls `t`.  The index expression panics on an
empty argument vector. -/
def Init.exec (h : Host) (l : linuxSetnsInit) (t : List Event) : List Event × Exit :=
  match l.config.Args with
  | [] => (t, .panicked (.indexOutOfRange 0 0))
  | arg0 :: rest =>
    let r := system.Execv h arg0 (arg0 :: rest) h.Environ
    (t ++ ⟨.Execv arg0 (arg0 :: rest) h.Environ, r.2⟩ :: r.1, r.2)

/-- `linuxSetnsInit.Init`: the recorded calls, in the order they are made, and how the
function ends. -/
def Init (h : Host) (l : linuxSetnsInit) : List Event × Exit :=
  match h.setupRlimits l.config.Config with
  | some err =>
    ([⟨.setupRlimits l.config.Config, .returned (some err)⟩], .returned (some err))
  | none =>
    let t1 : List Event := [⟨.setupRlimits l.config.Config, .returned none⟩]
    match h.finalizeNamespace l.config with
    | some err =>
      (t1 ++ [⟨.finalizeNamespace l.config, .returned (some err)⟩], .returned (some err))
    | none =>
      let t2 : List Event := t1 ++ [⟨.finalizeNamespace l.config, .returned none⟩]
      match apparmor.ApplyProfile h l.config.Config.AppArmorProfile with
      | (ta, some err) =>
        (t2 ++ ⟨.ApplyProfile l.config.Config.AppArmorProfile, .returned (some err)⟩ :: ta,
          .returned (some err))
      | (ta, none) =>
        let t3 : List Event :=
          t2 ++ ⟨.ApplyProfile l.config.Config.AppArmorProfile, .returned none⟩ :: ta
        if l.config.Config.ProcessLabel ≠ "" then
          match h.SetProcessLabel l.config.Config.ProcessLabel with
          | some err =>
            (t3 ++ [⟨.SetProcessLabel l.config.Config.ProcessLabel, .returned (some err)⟩],
              .returned (some err))
          | none =>
            Init.exec h l
              (t3 ++ [⟨.SetProcessLabel l.config.Config.ProcessLabel, .returned none⟩])
        else Init.exec h l t3

/-- The five steps of the sequence. -/
inductive Step
  | setupRlimits
  | finalizeNamespace
  | ApplyProfile
  | SetProcessLabel
  | Execv
  deriving DecidableEq, Repr

/-- The step a recorded call is, if it is one of the five (the calls a step makes itself
are not steps). -/
def stepOf : Call → Option Step
  | .setupRlimits _ => some .setupRlimits
  | .finalizeNamespace _ => some .finalizeNamespace
  | .ApplyProfile _ => some .ApplyProfile
  | .SetProcessLabel _ => some .SetProcessLabel
  | .Execv _ _ _ => some .Execv
  | .aa_change_onexec _ => none
  | .LookPath _ => none
  | .Exec _ _ _ => none

/-- The recorded calls that are steps. -/
def stepEvents (t : List Event) : List Event :=
  t.filter (fun e => (stepOf e.call).isSome)

/-- The steps of a trace, in order. -/
def stepsOf (t : List Event) : List Step :=
  t.filterMap (fun e => stepOf e.call)

/-- The order of the steps for a configuration: the label step is there only with a
non-empty label. -/
def stepOrder (l : linuxSetnsInit) : List Step :=
  [.setupRlimits, .finalizeNamespace, .ApplyProfile] ++
    (if l.config.Config.ProcessLabel ≠ "" then [.SetProcessLabel] else []) ++ [.Execv]

/-- The recorded call is a call of `system.Execv`. -/
def isExecv : Call → Bool
  | .Execv _ _ _ => true
  | _ => false

/-- The recorded call is a call of `syscall.Exec`. -/
def isSyscallExec : Call → Bool
  | .Exec _ _ _ => true
  | _ => false

/-- The calls of `system.Execv` in a trace. -/
def execvCalls (t : List Event) : List Call :=
  (t.map Event.call).filter isExecv

/-- The calls of `syscall.Exec` in a trace. -/
def syscallExecCalls (t : List Event) : List Call :=
  (t.map Event.call).filter isSyscallExec

/-- A host on which every collaborator succeeds; `LookPath` finds the file under `/bin`
and `Exec` replaces the image. -/
def hostOk : Host :=
  { setupRlimits := fun _ => none
    finalizeNamespace := fun _ => none
    aa_change_onexec := fun _ => none
    SetProcessLabel := fun _ => none
    LookPath := fun file => .ok ("/bin/" ++ file)
    Exec := fun _ _ _ => none
    Environ := ["PATH=/bin"] }

/-- A host on which `aa_change_onexec` fails with `EACCES` and everything else succeeds. -/
def hostDenied : Host := { hostOk with aa_change_onexec := fun _ => some (.Errno 13) }

/-- The end-to-end configuration without profile and label. -/
def plainInit : linuxSetnsInit := ⟨⟨["true"], ⟨[(7, 4096, 1024)], "", ""⟩⟩⟩

/-- The end-to-end configuration with the profile `confined` and a label. -/
def confinedInit : linuxSetnsInit :=
  ⟨⟨["true"], ⟨[(7, 4096, 1024)], "confined", "system_u:system_r:svirt_lxc_net_t:s0"⟩⟩⟩

end libcontainer

/-! ## Theorems -/

theorem splitOnByte_ne_nil (sep : Char) (s : List Char) : splitOnByte sep s ≠ [] := by
  induction s with
  | nil => simp [splitOnByte]
  | cons c cs ih =>
    unfold splitOnByte
    split
    · simp
    · split <;> simp

theorem joinBytes_cons_cons (sep : Char) (p : List Char) (ps : List (List Char))
    (h : ps ≠ []) : joinBytes sep (p :: ps) = p ++ sep :: joinBytes sep ps := by
  cases ps with
  | nil => exact absurd rfl h
  | cons q qs => rfl

/-- Joining the pieces of a split with the separator gives back the input. -/
theorem joinBytes_splitOnByte (sep : Char) (s : List Char) :
    joinBytes sep (splitOnByte sep s) = s := by
  induction s with
  | nil => rfl
  | cons c cs ih =>
    unfold splitOnByte
    split
    · rename_i hc
      rw [joinBytes_cons_cons sep [] _ (splitOnByte_ne_nil sep cs), ih, hc]
      rfl
    · split
      · rename_i hnil
        exact absurd hnil (splitOnByte_ne_nil sep cs)
      · rename_i p ps hps
        rw [hps] at ih
        cases ps with
        | nil =>
          simp only [joinBytes] at ih ⊢
          rw [ih]
        | cons q qs =>
          simp only [joinBytes] at ih ⊢
          rw [← ih]
          rfl

/-- No piece of a split contains the separator. -/
theorem splitOnByte_no_sep (sep : Char) (s : List Char) :
    ∀ p ∈ splitOnByte sep s, sep ∉ p := by
  induction s with
  | nil => simp [splitOnByte]
  | cons c cs ih =>
    unfold splitOnByte
    split
    · intro p hp
      rcases List.mem_cons.mp hp with h | h
      · subst h
        simp
      · exact ih p h
    · rename_i hc
      split
      · intro p hp
        simp only [List.mem_singleton] at hp
        subst hp
        simp only [List.mem_singleton]
        exact fun h => hc h.symm
      · rename_i p ps hps
        rw [hps] at ih
        intro q hq
        rcases List.mem_cons.mp hq with h | h
        · subst h
          intro hmem
          rcases List.mem_cons.mp hmem with h1 | h1
          · exact hc h1.symm
          · exact ih p (List.mem_cons_self _ _) h1
        · exact ih q (List.mem_cons_of_mem _ h)

theorem Join_Split (s : String) (sep : Char) : Join (Split s sep) sep = s := by
  unfold Join Split
  rw [List.map_map]
  have : (String.data ∘ String.mk) = id := by
    funext x
    rfl
  rw [this, List.map_id, joinBytes_splitOnByte]

theorem Split_no_sep (s : String) (sep : Char) : ∀ p ∈ Split s sep, sep ∉ p.data := by
  intro p hp
  unfold Split at hp
  rcases List.mem_map.mp hp with ⟨q, hq, rfl⟩
  exact splitOnByte_no_sep sep s.data q hq

namespace system

/-- C4: when the stat record of `pid` is readable and splits on the single space into at
least 22 fields, `GetProcessStartTime` returns element 21 of that split with a nil error;
the split is the exact one (joining its fields with a space gives the record back and no
field contains a space), so the token is the 22nd field byte for byte. -/
theorem GetProcessStartTime_returns_field22 (ReadFile : String → Except GoError String)
    (pid : Int) (data : String) (hread : ReadFile (statPath pid) = .ok data)
    (hlen : 22 ≤ (Split data ' ').length) :
    ∃ tok, (Split data ' ')[21]? = some tok ∧
      GetProcessStartTime ReadFile pid = .returned tok none ∧
      Join (Split data ' ') ' ' = data ∧
      (∀ p ∈ Split data ' ', ' ' ∉ p.data) := by
  have hlt : 21 < (Split data ' ').length := by omega
  refine ⟨(Split data ' ')[21], List.getElem?_eq_getElem hlt, ?_, Join_Split data ' ',
    Split_no_sep data ' '⟩
  unfold GetProcessStartTime
  rw [hread]
  simp only [Nat.add_one_sub_one, List.getElem?_eq_getElem hlt]

/-- A stat record with fewer than 22 fields makes `GetProcessStartTime` panic. -/
theorem GetProcessStartTime_short_record (ReadFile : String → Except GoError String)
    (pid : Int) (data : String) (hread : ReadFile (statPath pid) = .ok data)
    (hlen : (Split data ' ').length < 22) :
    GetProcessStartTime ReadFile pid =
      .panicked (.indexOutOfRange 21 (Split data ' ').length) := by
  unfold GetProcessStartTime
  rw [hread]
  have h : (Split data ' ')[22 - 1]? = none := List.getElem?_eq_none (by omega)
  simp only [h]

/-- Witness of C4 on a 24-field record: the token returned is field 22. -/
theorem GetProcessStartTime_returns_field22_witness :
    22 ≤ (Split sampleStat ' ').length ∧
      GetProcessStartTime (fun _ => .ok sampleStat) 4242 = .returned "8123456" none := by
  have hlen : 22 ≤ (Split sampleStat ' ').length := by decide
  refine ⟨hlen, ?_⟩
  obtain ⟨tok, h1, h2, _⟩ :=
    GetProcessStartTime_returns_field22 (fun _ => .ok sampleStat) 4242 sampleStat rfl hlen
  have h3 : (Split sampleStat ' ')[21]? = some "8123456" := by decide
  rw [h3] at h1
  cases h1
  exact h2

/-- C3: on a readable record with fewer than 22 fields `GetProcessStartTime` does not
return an error: the empty record splits into one field and the index expression
`parts[22-1]` panics with an out-of-range index, and so does a 4-field record. -/
theorem GetProcessStartTime_short_record_panics :
    GetProcessStartTime (fun _ => .ok "") 4242 = .panicked (.indexOutOfRange 21 1) ∧
    GetProcessStartTime (fun _ => .ok "4242 (cat) R 4241") 4242 =
      .panicked (.indexOutOfRange 21 4) := by
  constructor <;> decide

/-! ### system/setns_linux.go -/

/-- The keys of `setNsMap` are the pairs of `setNsPairs` printed as `OS/architecture`. -/
theorem setNsMap_keys :
    setNsMap.map Prod.fst = setNsPairs.map (fun p => sprintfSlash p.1 p.2) := by
  decide

theorem setNsPairs_no_slash :
    ∀ p ∈ setNsPairs, '/' ∉ p.1.data ∧ '/' ∉ p.2.data := by
  decide

theorem sprintfSlash_data (a b : String) :
    (sprintfSlash a b).data = a.data ++ '/' :: b.data := by
  unfold sprintfSlash
  simp [String.data_append]

/-- A byte string with one slash is cut at the slash in one way only. -/
theorem slash_cut_unique (a b c d : List Char) (h : a ++ '/' :: b = c ++ '/' :: d)
    (hc : '/' ∉ c) (hd : '/' ∉ d) : a = c ∧ b = d := by
  rcases List.append_eq_append_iff.mp h with ⟨m, hm1, hm2⟩ | ⟨m, hm1, hm2⟩
  · cases m with
    | nil =>
      simp only [List.append_nil, List.nil_append] at hm1 hm2
      exact ⟨hm1.symm, (List.cons.inj hm2).2⟩
    | cons x xs =>
      have hx : x = '/' := (List.cons.inj hm2).1.symm
      subst hx
      exact absurd (by rw [hm1]; simp) hc
  · cases m with
    | nil =>
      simp only [List.append_nil, List.nil_append] at hm1 hm2
      exact ⟨hm1, ((List.cons.inj hm2).2).symm⟩
    | cons x xs =>
      have hx : x = '/' := (List.cons.inj hm2).1.symm
      subst hx
      have hd2 : d = xs ++ '/' :: b := (List.cons.inj hm2).2
      exact absurd (by rw [hd2]; simp) hd

theorem lookup_some_mem_keys (m : List (String × Nat)) (k : String) (v : Nat)
    (h : m.lookup k = some v) : k ∈ m.map Prod.fst := by
  induction m with
  | nil => simp [List.lookup] at h
  | cons e es ih =>
    obtain ⟨k1, v1⟩ := e
    by_cases hk : k = k1
    · subst hk
      simp
    · have hb : (k == k1) = false := by simpa using hk
      rw [List.lookup_cons, hb] at h
      exact List.mem_cons_of_mem _ (ih h)

/-- Only the pairs of the table print to a key of the table. -/
theorem key_mem_imp_pair_mem (os arch : String)
    (h : sprintfSlash os arch ∈ setNsMap.map Prod.fst) : (os, arch) ∈ setNsPairs := by
  rw [setNsMap_keys] at h
  obtain ⟨p, hp, hpe⟩ := List.mem_map.mp h
  obtain ⟨h1, h2⟩ := setNsPairs_no_slash p hp
  have hd : os.data ++ '/' :: arch.data = p.1.data ++ '/' :: p.2.data := by
    rw [← sprintfSlash_data, ← sprintfSlash_data, hpe]
  obtain ⟨e1, e2⟩ := slash_cut_unique _ _ _ _ hd h1 h2
  have e1s : os = p.1 := String.ext e1
  have e2s : arch = p.2 := String.ext e2
  rw [e1s, e2s]
  exact hp

theorem mapIndex_absent (os arch : String) (h : (os, arch) ∉ setNsPairs) :
    mapIndex setNsMap (sprintfSlash os arch) = (0, false) := by
  unfold mapIndex
  cases hl : setNsMap.lookup (sprintfSlash os arch) with
  | none => rfl
  | some v => exact absurd (key_mem_imp_pair_mem os arch (lookup_some_mem_keys _ _ _ hl)) h

theorem mapIndex_present (os arch : String) (h : (os, arch) ∈ setNsPairs) :
    ∃ ns, mapIndex setNsMap (sprintfSlash os arch) = (ns, true) ∧ 0 < ns := by
  simp only [setNsPairs, List.mem_cons, Prod.mk.injEq, List.mem_nil_iff, or_false] at h
  rcases h with ⟨rfl, rfl⟩ | ⟨rfl, rfl⟩ | ⟨rfl, rfl⟩ | ⟨rfl, rfl⟩ | ⟨rfl, rfl⟩ | ⟨rfl, rfl⟩ |
    ⟨rfl, rfl⟩ | ⟨rfl, rfl⟩
  · exact ⟨346, by decide, by decide⟩
  · exact ⟨268, by decide, by decide⟩
  · exact ⟨308, by decide, by decide⟩
  · exact ⟨375, by decide, by decide⟩
  · exact ⟨350, by decide, by decide⟩
  · exact ⟨350, by decide, by decide⟩
  · exact ⟨350, by decide, by decide⟩
  · exact ⟨339, by decide, by decide⟩

/-- For a pair without an entry `SysSetns` is the zero value of the map index. -/
theorem SysSetns_absent (rt : Runtime) (h : (rt.GOOS, rt.GOARCH) ∉ setNsPairs) :
    SysSetns rt = 0 := by
  unfold SysSetns sysSetns
  rw [mapIndex_absent rt.GOOS rt.GOARCH h]
  rfl

/-- C7: for a pair of the table the lookup of `Setns` finds a positive number and `Setns`
issues the raw system call with it; for any other pair `Setns` returns the error
`unsupported platform OS/architecture` and issues no system call. -/
theorem Setns_table_lookup (rt : Runtime) (RawSyscall : RawCall → Nat) (fd flags : Nat) :
    ((rt.GOOS, rt.GOARCH) ∈ setNsPairs →
      ∃ ns, mapIndex setNsMap (sprintfSlash rt.GOOS rt.GOARCH) = (ns, true) ∧ 0 < ns ∧
        (Setns rt RawSyscall fd flags).1 = [⟨ns, fd, flags, 0⟩]) ∧
    ((rt.GOOS, rt.GOARCH) ∉ setNsPairs →
      Setns rt RawSyscall fd flags =
        ([], some (.errorString ("unsupported platform " ++ rt.GOOS ++ "/" ++ rt.GOARCH)))) := by
  constructor
  · intro h
    obtain ⟨ns, hns, hpos⟩ := mapIndex_present rt.GOOS rt.GOARCH h
    refine ⟨ns, hns, hpos, ?_⟩
    unfold Setns
    rw [hns]
    simp only
    split <;> rfl
  · intro h
    unfold Setns
    rw [mapIndex_absent rt.GOOS rt.GOARCH h]

/-- Witness of C7: `linux/amd64` is in the table and joins with call 308; `linux/riscv64`
is not and gets the error, with no system call. -/
theorem Setns_table_lookup_witness :
    (("linux", "amd64") ∈ setNsPairs ∧
      (Setns ⟨"linux", "amd64"⟩ (fun _ => 0) 3 0).1 = [⟨308, 3, 0, 0⟩]) ∧
    (("linux", "riscv64") ∉ setNsPairs ∧
      Setns ⟨"linux", "riscv64"⟩ (fun _ => 0) 3 0 =
        ([], some (.errorString "unsupported platform linux/riscv64"))) := by
  refine ⟨⟨by decide, ?_⟩, ⟨by decide, ?_⟩⟩
  · obtain ⟨ns, h1, _, h3⟩ :=
      (Setns_table_lookup ⟨"linux", "amd64"⟩ (fun _ => 0) 3 0).1 (by decide)
    have h4 : mapIndex setNsMap (sprintfSlash "linux" "amd64") = (308, true) := by decide
    rw [h4] at h1
    cases h1
    exact h3
  · exact (Setns_table_lookup ⟨"linux", "riscv64"⟩ (fun _ => 0) 3 0).2 (by decide)

/-- C8: for the target `linux/riscv64`, which has no entry in `setNsMap`, `SysSetns`
reports the number 0, the zero value of the map index, and no error; `Setns` on the same
target reports the unsupported platform. -/
theorem SysSetns_absent_pair_yields_zero :
    setNsMap.lookup (sprintfSlash "linux" "riscv64") = none ∧
    SysSetns ⟨"linux", "riscv64"⟩ = 0 ∧
    (Setns ⟨"linux", "riscv64"⟩ (fun _ => 0) 3 0).2 =
      some (.errorString "unsupported platform linux/riscv64") := by
  refine ⟨by decide, by decide, by decide⟩

/-! ### system/linux.go: the parent-death signal -/

/-- A Go `int` survives the conversion to `uintptr` and back. -/
theorem int_uintptr (p : Int) (h : isInt p) : int (uintptr p) = p := by
  obtain ⟨h1, h2⟩ := h
  have e63 : (2 : Int) ^ 63 = 9223372036854775808 := by norm_num
  have e64 : (2 : Int) ^ 64 = 18446744073709551616 := by norm_num
  have n63 : (2 : Nat) ^ 63 = 9223372036854775808 := by norm_num
  have n64 : (2 : Nat) ^ 64 = 18446744073709551616 := by norm_num
  rw [e63] at h1 h2
  unfold int uintptr
  rw [e64, n63, n64]
  split <;> omega

theorem Restore_zero (k : Prctl) (s : PdeathState) :
    ParentDeathSignal.Restore k 0 s = (none, s) := by
  simp [ParentDeathSignal.Restore]

theorem Restore_get_failed (k : Prctl) (p : Int) (s : PdeathState) (hp : p ≠ 0)
    (hget : k.getErrno s ≠ 0) :
    ParentDeathSignal.Restore k p s =
      (some (.Errno (k.getErrno s)), { s with getCalls := s.getCalls + 1 }) := by
  simp [ParentDeathSignal.Restore, GetParentDeathSignal, hp, hget]

theorem Restore_current_eq (k : Prctl) (p : Int) (s : PdeathState) (hp : p ≠ 0)
    (hget : k.getErrno s = 0) (hc : s.pdeathsig = p) :
    ParentDeathSignal.Restore k p s = (none, { s with getCalls := s.getCalls + 1 }) := by
  simp [ParentDeathSignal.Restore, GetParentDeathSignal, hp, hget, hc]

theorem Restore_current_ne (k : Prctl) (p : Int) (s : PdeathState) (hp : p ≠ 0)
    (hget : k.getErrno s = 0) (hc : s.pdeathsig ≠ p) :
    ParentDeathSignal.Restore k p s =
      ParentDeathSignal.Set k p { s with getCalls := s.getCalls + 1 } := by
  have hc2 : ¬ p = s.pdeathsig := fun h => hc h.symm
  simp [ParentDeathSignal.Restore, GetParentDeathSignal, hp, hget, hc2]

theorem Set_setCalls (k : Prctl) (p : Int) (s : PdeathState) :
    (ParentDeathSignal.Set k p s).2.setCalls = s.setCalls ++ [uintptr p] ∧
    (ParentDeathSignal.Set k p s).2.getCalls = s.getCalls := by
  unfold ParentDeathSignal.Set SetParentDeathSignal
  simp only
  split <;> exact ⟨rfl, rfl⟩

theorem Set_success_cell (k : Prctl) (p : Int) (s : PdeathState) (hint : isInt p)
    (h : (ParentDeathSignal.Set k p s).1 = none) :
    (ParentDeathSignal.Set k p s).2.pdeathsig = p := by
  unfold ParentDeathSignal.Set SetParentDeathSignal at h ⊢
  simp only at h ⊢
  split
  · rename_i he
    rw [if_pos he] at h
    cases h
  · exact int_uintptr p hint

/-- The calls of one `Restore`: it appends at most one set call; after a nil return either
nothing was set, or the cell holds the target. -/
theorem Restore_effect (k : Prctl) (p : Int) (s : PdeathState) (hint : isInt p) :
    let r := ParentDeathSignal.Restore k p s
    (r.2.setCalls = s.setCalls ∨
      (r.2.setCalls = s.setCalls ++ [uintptr p] ∧ (r.1 = none → r.2.pdeathsig = p))) ∧
    (r.1 = none → r.2.setCalls = s.setCalls → p ≠ 0 → r.2.pdeathsig = p) ∧
    (r.1 = none → r.2.setCalls = s.setCalls → r.2.pdeathsig = s.pdeathsig) := by
  intro r
  by_cases hp : p = 0
  · subst hp
    have hr : r = (none, s) := Restore_zero k s
    rw [hr]
    exact ⟨Or.inl rfl, fun _ _ h => absurd rfl h, fun _ _ => rfl⟩
  · by_cases hget : k.getErrno s = 0
    · by_cases hc : s.pdeathsig = p
      · have hr : r = (none, { s with getCalls := s.getCalls + 1 }) :=
          Restore_current_eq k p s hp hget hc
        rw [hr]
        exact ⟨Or.inl rfl, fun _ _ _ => hc, fun _ _ => rfl⟩
      · have hr : r = ParentDeathSignal.Set k p { s with getCalls := s.getCalls + 1 } :=
          Restore_current_ne k p s hp hget hc
        rw [hr]
        have hs := (Set_setCalls k p { s with getCalls := s.getCalls + 1 }).1
        refine ⟨Or.inr ⟨hs, fun h => Set_success_cell k p _ hint h⟩, ?_, ?_⟩
        · intro h _ _
          exact Set_success_cell k p _ hint h
        · intro _ h2
          rw [hs] at h2
          simp at h2
    · have hr : r = (some (.Errno (k.getErrno s)), { s with getCalls := s.getCalls + 1 }) :=
        Restore_get_failed k p s hp hget
      rw [hr]
      refine ⟨Or.inl rfl, ?_, ?_⟩
      · intro h
        cases h
      · intro h
        cases h

/-- C5 (amended): with a target `p` other than 0 and a get that reports the current value
`c`, `Restore` issues one get and performs the set exactly when `c` differs from `p`: it
changes nothing else when `c = p` and calls `Set` with `p` (one set call, with argument
`uintptr(p)`) otherwise, and after a nil return the current value is `p`.  With the target
0 `Restore` returns nil at once and issues neither call. -/
theorem Restore_reads_then_sets_when_different (k : Prctl) (p : Int) (s : PdeathState) :
    (p = 0 → ParentDeathSignal.Restore k p s = (none, s)) ∧
    (p ≠ 0 → isInt p → k.getErrno s = 0 →
      (ParentDeathSignal.Restore k p s).2.getCalls = s.getCalls + 1 ∧
      (s.pdeathsig = p →
        ParentDeathSignal.Restore k p s = (none, { s with getCalls := s.getCalls + 1 })) ∧
      (s.pdeathsig ≠ p →
        ParentDeathSignal.Restore k p s =
          ParentDeathSignal.Set k p { s with getCalls := s.getCalls + 1 } ∧
        (ParentDeathSignal.Restore k p s).2.setCalls = s.setCalls ++ [uintptr p]) ∧
      ((ParentDeathSignal.Restore k p s).1 = none →
        (ParentDeathSignal.Restore k p s).2.pdeathsig = p)) := by
  constructor
  · intro hp
    subst hp
    exact Restore_zero k s
  · intro hp hint hget
    by_cases hc : s.pdeathsig = p
    · have hr := Restore_current_eq k p s hp hget hc
      refine ⟨by rw [hr], fun _ => hr, fun h => absurd hc h, fun _ => by rw [hr]; exact hc⟩
    · have hr := Restore_current_ne k p s hp hget hc
      have hs := Set_setCalls k p { s with getCalls := s.getCalls + 1 }
      refine ⟨by rw [hr]; exact hs.2, fun h => absurd h hc, fun _ => ⟨hr, by rw [hr]; exact hs.1⟩,
        ?_⟩
      intro h
      rw [hr] at h ⊢
      exact Set_success_cell k p _ hint h

/-- Witness of C5 (amended): target 15 with current value 0 gives one get and one set of
15, after which the cell holds 15; target 0 gives no call. -/
theorem Restore_reads_then_sets_when_different_witness :
    ((15 : Int) ≠ 0 ∧ isInt 15 ∧ prctlOk.getErrno ⟨0, 0, []⟩ = 0) ∧
    ParentDeathSignal.Restore prctlOk 15 ⟨0, 0, []⟩ = (none, ⟨15, 1, [15]⟩) ∧
    ParentDeathSignal.Restore prctlOk 0 ⟨9, 0, []⟩ = (none, ⟨9, 0, []⟩) := by
  have h15 : (15 : Int) ≠ 0 := by decide
  have hint : isInt 15 := by
    unfold isInt
    norm_num
  have hget : prctlOk.getErrno ⟨0, 0, []⟩ = 0 := rfl
  have hne : (⟨0, 0, []⟩ : PdeathState).pdeathsig ≠ 15 := by decide
  have hthm := Restore_reads_then_sets_when_different prctlOk 15 ⟨0, 0, []⟩
  obtain ⟨hg, _, hset, hcell⟩ := hthm.2 h15 hint hget
  obtain ⟨hr, _⟩ := hset hne
  refine ⟨⟨h15, hint, hget⟩, ?_,
    (Restore_reads_then_sets_when_different prctlOk 0 ⟨9, 0, []⟩).1 rfl⟩
  rw [hr]
  decide

/-- C5 as stated fails for the target 0: with the current value 9, which differs from the
target, `Restore` returns nil without reading the current value and without a set, and the
current value stays 9. -/
theorem Restore_zero_target_skips_get_and_set :
    (9 : Int) ≠ 0 ∧
    (ParentDeathSignal.Restore prctlOk 0 ⟨9, 0, []⟩).1 = none ∧
    (ParentDeathSignal.Restore prctlOk 0 ⟨9, 0, []⟩).2.getCalls = 0 ∧
    (ParentDeathSignal.Restore prctlOk 0 ⟨9, 0, []⟩).2.setCalls = [] ∧
    (ParentDeathSignal.Restore prctlOk 0 ⟨9, 0, []⟩).2.pdeathsig ≠ 0 := by
  refine ⟨by decide, by decide, by decide, by decide, by decide⟩

/-- C6 (amended): two `Restore` calls in a row with the same target perform the underlying
set at most once in total when the first call returns nil, and so whenever the set
primitive does not fail; in any case they perform it at most twice. -/
theorem Restore_twice_sets (k : Prctl) (p : Int) (s : PdeathState) (hint : isInt p) :
    let r1 := ParentDeathSignal.Restore k p s
    let r2 := ParentDeathSignal.Restore k p r1.2
    (r1.1 = none → r2.2.setCalls.length ≤ s.setCalls.length + 1) ∧
    ((∀ st sig, k.setErrno st sig = 0) → r2.2.setCalls.length ≤ s.setCalls.length + 1) ∧
    r2.2.setCalls.length ≤ s.setCalls.length + 2 := by
  intro r1 r2
  have e1 := Restore_effect k p s hint
  have e2 := Restore_effect k p r1.2 hint
  have hzero : p = 0 → r2.2.setCalls = s.setCalls := by
    intro hp
    subst hp
    show (ParentDeathSignal.Restore k 0 (ParentDeathSignal.Restore k 0 s).2).2.setCalls = _
    rw [Restore_zero, Restore_zero]
  -- after a first call that returned nil and left the cell at the target, no set follows
  have hsecond : p ≠ 0 → r1.2.pdeathsig = p → r2.2.setCalls = r1.2.setCalls := by
    intro hp hcell
    by_cases hget : k.getErrno r1.2 = 0
    · show (ParentDeathSignal.Restore k p r1.2).2.setCalls = _
      rw [Restore_current_eq k p r1.2 hp hget hcell]
    · show (ParentDeathSignal.Restore k p r1.2).2.setCalls = _
      rw [Restore_get_failed k p r1.2 hp hget]
  have hfirst : r1.1 = none → r2.2.setCalls.length ≤ s.setCalls.length + 1 := by
    intro hnil
    by_cases hp : p = 0
    · rw [hzero hp]
      omega
    · rcases e1.1 with h | ⟨h, hcell⟩
      · have hc := e1.2.1 hnil h hp
        rw [hsecond hp hc, h]
        omega
      · rw [hsecond hp (hcell hnil), h]
        simp
  refine ⟨hfirst, ?_, ?_⟩
  · intro hok
    by_cases hnil : r1.1 = none
    · exact hfirst hnil
    · -- the first call failed, so it failed at the get: nothing was set by it
      have h1 : r1.2.setCalls = s.setCalls := by
        by_cases hp : p = 0
        · subst hp
          show (ParentDeathSignal.Restore k 0 s).2.setCalls = _
          rw [Restore_zero]
        · by_cases hget : k.getErrno s = 0
          · by_cases hc : s.pdeathsig = p
            · exact absurd (by
                show (ParentDeathSignal.Restore k p s).1 = none
                rw [Restore_current_eq k p s hp hget hc]) hnil
            · exact absurd (by
                show (ParentDeathSignal.Restore k p s).1 = none
                rw [Restore_current_ne k p s hp hget hc]
                unfold ParentDeathSignal.Set SetParentDeathSignal
                simp [hok]) hnil
          · show (ParentDeathSignal.Restore k p s).2.setCalls = _
            rw [Restore_get_failed k p s hp hget]
      rcases e2.1 with h | ⟨h, _⟩
      · rw [h, h1]
        omega
      · rw [h, h1]
        simp
  · rcases e1.1 with h1 | ⟨h1, _⟩ <;> rcases e2.1 with h2 | ⟨h2, _⟩ <;> rw [h2, h1] <;>
      simp

/-- Witness of C6 (amended): from the cell value 0, two `Restore` calls with target 15 on
a `prctl` that succeeds perform one set in total. -/
theorem Restore_twice_sets_witness :
    isInt 15 ∧
    (ParentDeathSignal.Restore prctlOk 15
      (ParentDeathSignal.Restore prctlOk 15 ⟨0, 0, []⟩).2).2.setCalls.length ≤ 1 := by
  have hint : isInt 15 := by
    unfold isInt
    norm_num
  exact ⟨hint, (Restore_twice_sets prctlOk 15 ⟨0, 0, []⟩ hint).2.1 (fun _ _ => rfl)⟩

/-- C6 as stated fails when the set fails: with the target 65, which `prctl` rejects with
`EINVAL`, and the cell at 0, each of the two `Restore` calls performs the set, two in
total, and both return the error. -/
theorem Restore_twice_failing_set_sets_twice :
    (ParentDeathSignal.Restore prctlKernel 65 ⟨0, 0, []⟩).1 = some (.Errno 22) ∧
    (ParentDeathSignal.Restore prctlKernel 65
      (ParentDeathSignal.Restore prctlKernel 65 ⟨0, 0, []⟩).2) =
      (some (.Errno 22), ⟨0, 2, [65, 65]⟩) := by
  constructor <;> decide

end system

namespace apparmor

/-! ### apparmor/gen.go -/

theorem probes_tunables (t a : Bool) : tunablesExists (probes t a) = t := by
  cases t <;> cases a <;> decide

theorem probes_abstractions (t a : Bool) : abstractionsExists (probes t a) = a := by
  cases t <;> cases a <;> decide

/-- The generated profile depends on the host only through the two probes. -/
theorem generateProfile_probes (Stat : String → Option GoError) :
    generateProfile Stat = generateProfile (probes (tunablesExists Stat) (abstractionsExists Stat)) := by
  unfold generateProfile
  simp only [probes_tunables, probes_abstractions]

/-- The compiled-in template parses. -/
theorem Parse_baseTemplate_ok : (Parse baseTemplate).toOption.isSome = true := by
  decide!

theorem generateProfile_both_absent :
    (generateProfile (probes false false)).2 = none ∧
    contains (generateProfile (probes false false)).1 "@\x7bPROC\x7d=/proc/" ∧
    ¬ contains (generateProfile (probes false false)).1 "#include <tunables/global>" ∧
    ¬ contains (generateProfile (probes false false)).1 "#include <abstractions/base>" := by
  unfold contains
  decide!

theorem generateProfile_both_present :
    (generateProfile (probes true true)).2 = none ∧
    contains (generateProfile (probes true true)).1 "#include <tunables/global>" ∧
    contains (generateProfile (probes true true)).1 "#include <abstractions/base>" ∧
    ¬ contains (generateProfile (probes true true)).1 "@\x7bPROC\x7d=/proc/" := by
  unfold contains
  decide!

/-- C9: when both probes report the resource absent, `generateProfile` succeeds and the
document contains the inline definition `@{PROC}=/proc/` and neither include line; when
both report it present, the document contains `#include <tunables/global>` and
`#include <abstractions/base>` and no inline definition `@{PROC}=/proc/`. -/
theorem generateProfile_imports_follow_probes (Stat : String → Option GoError) :
    (tunablesExists Stat = false → abstractionsExists Stat = false →
      (generateProfile Stat).2 = none ∧
      contains (generateProfile Stat).1 "@\x7bPROC\x7d=/proc/" ∧
      ¬ contains (generateProfile Stat).1 "#include <tunables/global>" ∧
      ¬ contains (generateProfile Stat).1 "#include <abstractions/base>") ∧
    (tunablesExists Stat = true → abstractionsExists Stat = true →
      (generateProfile Stat).2 = none ∧
      contains (generateProfile Stat).1 "#include <tunables/global>" ∧
      contains (generateProfile Stat).1 "#include <abstractions/base>" ∧
      ¬ contains (generateProfile Stat).1 "@\x7bPROC\x7d=/proc/") := by
  constructor
  · intro h1 h2
    rw [generateProfile_probes Stat, h1, h2]
    exact generateProfile_both_absent
  · intro h1 h2
    rw [generateProfile_probes Stat, h1, h2]
    exact generateProfile_both_present

/-- Witness of C9 on a host where no file exists and on a host where both resources
exist. -/
theorem generateProfile_imports_follow_probes_witness :
    (tunablesExists (fun _ => some (.Errno 2)) = false ∧
      abstractionsExists (fun _ => some (.Errno 2)) = false ∧
      contains (generateProfile (fun _ => some (.Errno 2))).1 "@\x7bPROC\x7d=/proc/" ∧
      ¬ contains (generateProfile (fun _ => some (.Errno 2))).1
        "#include <tunables/global>") ∧
    (tunablesExists (fun _ => none) = true ∧
      abstractionsExists (fun _ => none) = true ∧
      contains (generateProfile (fun _ => none)).1 "#include <abstractions/base>" ∧
      ¬ contains (generateProfile (fun _ => none)).1 "@\x7bPROC\x7d=/proc/") := by
  have ha := (generateProfile_imports_follow_probes (fun _ => some (.Errno 2))).1 rfl rfl
  have hb := (generateProfile_imports_follow_probes (fun _ => none)).2 rfl rfl
  exact ⟨⟨rfl, rfl, ha.2.1, ha.2.2.1⟩, ⟨rfl, rfl, hb.2.2.1, hb.2.2.2⟩⟩

/-- C10: whatever the two probes report, `generateProfile` succeeds and the document has
14 lines whose first non-blank token is `deny`. -/
theorem generateProfile_deny_lines (Stat : String → Option GoError) :
    (generateProfile Stat).2 = none ∧ denyLineCount (generateProfile Stat).1 = 14 := by
  rw [generateProfile_probes Stat]
  generalize tunablesExists Stat = t
  generalize abstractionsExists Stat = a
  cases t <;> cases a <;> decide!

end apparmor

namespace libcontainer

/-! ### setns_init_linux.go -/

/-- The three ways `ApplyProfile` goes. -/
theorem ApplyProfile_cases (h : Host) (name : String) :
    (name = "" ∧ apparmor.ApplyProfile h name = ([], none)) ∨
    (name ≠ "" ∧ ∃ e, apparmor.ApplyProfile h name =
      ([⟨.aa_change_onexec name, .returned (some e)⟩], some e)) ∨
    (name ≠ "" ∧ apparmor.ApplyProfile h name =
      ([⟨.aa_change_onexec name, .returned none⟩], none)) := by
  by_cases hn : name = ""
  · exact Or.inl ⟨hn, by simp [apparmor.ApplyProfile, hn]⟩
  · rcases haa : h.aa_change_onexec name with _ | e
    · exact Or.inr (Or.inr ⟨hn, by simp [apparmor.ApplyProfile, hn, haa]⟩)
    · exact Or.inr (Or.inl ⟨hn, e, by simp [apparmor.ApplyProfile, hn, haa]⟩)

/-- The four ways the last statement of `Init` goes: the index panics, `LookPath` fails,
`Exec` fails, or the image is replaced.  The calls are appended to those made before. -/
theorem Init.exec_cases (h : Host) (l : linuxSetnsInit) :
    ∃ tail ex, (∀ t, Init.exec h l t = (t ++ tail, ex)) ∧
      ((tail = [] ∧ ex = .panicked (.indexOutOfRange 0 0)) ∨
       (∃ c a v e, ex = .returned (some e) ∧
          tail = [⟨.Execv c a v, .returned (some e)⟩, ⟨.LookPath c, .returned (some e)⟩]) ∨
       (∃ c a v n e, ex = .returned (some e) ∧
          tail = [⟨.Execv c a v, .returned (some e)⟩, ⟨.LookPath c, .returned none⟩,
            ⟨.Exec n a v, .returned (some e)⟩]) ∨
       (∃ c a v n, ex = .replaced ∧
          tail = [⟨.Execv c a v, .replaced⟩, ⟨.LookPath c, .returned none⟩,
            ⟨.Exec n a v, .replaced⟩])) := by
  obtain ⟨⟨Args, cfg⟩⟩ := l
  rcases Args with _ | ⟨arg0, rest⟩
  · exact ⟨[], .panicked (.indexOutOfRange 0 0), fun t => by simp [Init.exec], Or.inl ⟨rfl, rfl⟩⟩
  · rcases hlp : h.LookPath arg0 with e | n
    · exact ⟨_, _, fun t => by simp [Init.exec, system.Execv, hlp],
        Or.inr (Or.inl ⟨arg0, arg0 :: rest, h.Environ, e, rfl, rfl⟩)⟩
    · rcases hex : h.Exec n (arg0 :: rest) h.Environ with _ | e
      · exact ⟨_, _, fun t => by simp [Init.exec, system.Execv, hlp, hex],
          Or.inr (Or.inr (Or.inr ⟨arg0, arg0 :: rest, h.Environ, n, rfl, rfl⟩))⟩
      · exact ⟨_, _, fun t => by simp [Init.exec, system.Execv, hlp, hex],
          Or.inr (Or.inr (Or.inl ⟨arg0, arg0 :: rest, h.Environ, n, e, rfl, rfl⟩))⟩

/-- C1: for every configuration and every outcome of the collaborators, the steps `Init`
attempts are an initial part of the order setupRlimits, finalizeNamespace, ApplyProfile,
SetProcessLabel (present only with a non-empty label), Execv, each at most once; a step
that returns an error is the last step attempted and `Init` returns that very error; and
when ApplyProfile returns an error, no SetProcessLabel and no Execv call is recorded. -/
theorem Init_steps_in_order_first_error_returned (h : Host) (l : linuxSetnsInit) :
    stepsOf (Init h l).1 <+: stepOrder l ∧
    (stepsOf (Init h l).1).Nodup ∧
    (∀ ev ∈ stepEvents (Init h l).1, ∀ err, ev.exit = .returned (some err) →
      (Init h l).2 = .returned (some err) ∧ (stepEvents (Init h l).1).getLast? = some ev) ∧
    (∀ name err, (⟨.ApplyProfile name, .returned (some err)⟩ : Event) ∈ (Init h l).1 →
      (Init h l).2 = .returned (some err) ∧
      ∀ ev ∈ (Init h l).1,
        stepOf ev.call ≠ some .SetProcessLabel ∧ stepOf ev.call ≠ some .Execv) := by
  obtain ⟨tail, ex, hexec, hshape⟩ := Init.exec_cases h l
  obtain ⟨⟨Args, cfg⟩⟩ := l
  rcases hsr : h.setupRlimits cfg with _ | e1
  rotate_left
  · simp [Init, hsr, stepsOf, stepEvents, stepOf, stepOrder]
  rcases hfn : h.finalizeNamespace ⟨Args, cfg⟩ with _ | e2
  rotate_left
  · simp [Init, hsr, hfn, stepsOf, stepEvents, stepOf, stepOrder]
  rcases ApplyProfile_cases h cfg.AppArmorProfile with ⟨hn, hap⟩ | ⟨hn, e3, hap⟩ | ⟨hn, hap⟩
  rotate_left
  · simp [Init, hsr, hfn, hap, stepsOf, stepEvents, stepOf, stepOrder]
  all_goals by_cases hlabel : cfg.ProcessLabel = ""
  all_goals rcases hspl : h.SetProcessLabel cfg.ProcessLabel with _ | e4
  all_goals
    rcases hshape with ⟨rfl, rfl⟩ | ⟨c, a, v, e, rfl, rfl⟩ | ⟨c, a, v, n, e, rfl, rfl⟩ |
      ⟨c, a, v, n, rfl, rfl⟩
  all_goals
    simp [Init, hsr, hfn, hap, hlabel, hspl, hexec, stepsOf, stepEvents, stepOf, stepOrder]

/-- Witness of C1: with the profile `confined` and an `aa_change_onexec` that fails with
`EACCES`, `Init` returns that error after the steps setupRlimits, finalizeNamespace and
ApplyProfile. -/
theorem Init_steps_in_order_first_error_returned_witness :
    (⟨.ApplyProfile "confined", .returned (some (.Errno 13))⟩ : Event) ∈
      (Init hostDenied confinedInit).1 ∧
    (Init hostDenied confinedInit).2 = .returned (some (.Errno 13)) ∧
    stepsOf (Init hostDenied confinedInit).1 =
      [.setupRlimits, .finalizeNamespace, .ApplyProfile] := by
  have hmem : (⟨.ApplyProfile "confined", .returned (some (.Errno 13))⟩ : Event) ∈
      (Init hostDenied confinedInit).1 := by decide
  exact ⟨hmem,
    ((Init_steps_in_order_first_error_returned hostDenied confinedInit).2.2.2
      "confined" (.Errno 13) hmem).1, by decide⟩

/-- C2: with an empty profile name, an empty label and a non-empty argument vector, when
setupRlimits and finalizeNamespace succeed, `Init` calls ApplyProfile with the empty name,
which returns nil, records no `aa_change_onexec` call and no SetProcessLabel call, and
calls `system.Execv` exactly once, with `Args[0]`, the whole of `Args` and the inherited
environment; when `LookPath` resolves `Args[0]`, `syscall.Exec` is called exactly once,
with the resolved path, the whole of `Args` and the inherited environment. -/
theorem Init_plain_config_execs_once (h : Host) (l : linuxSetnsInit) (arg0 : String)
    (rest : List String)
    (hprofile : l.config.Config.AppArmorProfile = "")
    (hlabel : l.config.Config.ProcessLabel = "")
    (hargs : l.config.Args = arg0 :: rest)
    (hsr : h.setupRlimits l.config.Config = none)
    (hfn : h.finalizeNamespace l.config = none) :
    (⟨.ApplyProfile "", .returned none⟩ : Event) ∈ (Init h l).1 ∧
    (∀ ev ∈ (Init h l).1, ∀ n, ev.call ≠ .aa_change_onexec n) ∧
    (∀ ev ∈ (Init h l).1, ∀ lb, ev.call ≠ .SetProcessLabel lb) ∧
    execvCalls (Init h l).1 = [.Execv arg0 l.config.Args h.Environ] ∧
    (∀ name, h.LookPath arg0 = .ok name →
      syscallExecCalls (Init h l).1 = [.Exec name l.config.Args h.Environ]) := by
  obtain ⟨⟨Args, cfg⟩⟩ := l
  simp only at hprofile hlabel hargs hsr hfn
  subst hargs
  rcases hlp : h.LookPath arg0 with e | n
  · simp [Init, Init.exec, system.Execv, apparmor.ApplyProfile, hsr, hfn, hprofile, hlabel,
      hlp, execvCalls, syscallExecCalls, isExecv, isSyscallExec]
  · rcases hex : h.Exec n (arg0 :: rest) h.Environ with _ | e <;>
      simp [Init, Init.exec, system.Execv, apparmor.ApplyProfile, hsr, hfn, hprofile, hlabel,
        hlp, hex, execvCalls, syscallExecCalls, isExecv, isSyscallExec]

/-- Witness of C2: the configuration `/bin/true` without profile and label on a host where
everything succeeds; the image is replaced after one `Execv` call. -/
theorem Init_plain_config_execs_once_witness :
    execvCalls (Init hostOk plainInit).1 = [.Execv "true" ["true"] ["PATH=/bin"]] ∧
    syscallExecCalls (Init hostOk plainInit).1 = [.Exec "/bin/true" ["true"] ["PATH=/bin"]] ∧
    (Init hostOk plainInit).2 = .replaced := by
  have hthm := Init_plain_config_execs_once hostOk plainInit "true" [] rfl rfl rfl rfl rfl
  exact ⟨hthm.2.2.2.1, hthm.2.2.2.2 "/bin/true" rfl, by decide⟩

end libcontainer

end Runc
